import Mathlib

/-!
Shallow embedding of the two Python source files of the repository:

* `auto-trust-store-manager/test-suite/trust_chain_validator.py`
  (trust-store discovery, webserver / mTLS connection tests, run
  orchestration, self-signed client certificate generation), and
* `ssl_test_website/src/app.py`
  (certificate-chain parsing, client-certificate header handling and the
  `/mtls` endpoint of the Flask info server).

File contents read from disk are modelled as lists of characters
(`Bytes`); every external effect (filesystem reads, TLS handshakes, the
`keytool` subprocess, `crypto.load_certificate`) is supplied as a value or
function in an explicit environment record, and the Python functions become
pure Lean functions of that environment.  Certificates themselves are
opaque handles (`Nat`); timestamps, logging and the optional JSON report
file are elided, since no claim mentions them.
-/

namespace SslRepo

/-- Byte strings read from disk are modelled as lists of characters. -/
abbrev Bytes := List Char

/-- The PEM certificate marker `-----BEGIN CERTIFICATE-----` used by both
source files for locating and counting certificates. -/
def certMarker : Bytes := "-----BEGIN CERTIFICATE-----".toList

/-- Whether `certMarker` occurs in `s` starting at index `i`
(an occurrence of the marker at absolute position `i`). -/
def occursAt (s : Bytes) (i : Nat) : Bool :=
  certMarker.isPrefixOf (s.drop i)

/-- Embeds Python `bytes.find(b"-----BEGIN CERTIFICATE-----")`: the least
index at which the marker occurs, `none` standing for the Python result
`-1`. -/
def findMarker : Bytes → Option Nat
  | [] => none
  | c :: t =>
    if certMarker.isPrefixOf (c :: t) then some 0
    else (findMarker t).map (· + 1)

/-- Embeds the Python membership test
`b"-----BEGIN CERTIFICATE-----" in content`. -/
def containsMarker (s : Bytes) : Bool :=
  (findMarker s).isSome

/-- Embeds Python `content.count(b"-----BEGIN CERTIFICATE-----")`:
the number of non-overlapping occurrences of the marker, scanning greedily
from the left, exactly as `bytes.count` does. -/
def countMarker : Bytes → Nat
  | [] => 0
  | c :: t =>
    match findMarker (c :: t) with
    | none => 0
    | some j => 1 + countMarker ((c :: t).drop (j + certMarker.length))
termination_by s => s.length
decreasing_by
  have hm : 0 < certMarker.length := by decide
  simp only [List.length_drop, List.length_cons]
  omega

/-- All indices at which the marker occurs in `s`.  A well-formed PEM
bundle with `n` certificates has exactly `n` such positions, one at the
start of each certificate block. -/
def markerPositions (s : Bytes) : List Nat :=
  (List.range s.length).filter (fun i => occursAt s i)

/-! ## Trust-store validator: data model

Embedding of `trust_chain_validator.py`. -/

/-- Format tag of a discovered trust store (the `type` key of the Python dict): a PEM bundle or a Java keystore. -/
inductive StoreType where
  | pem
  | jks
deriving DecidableEq

/-- One file seen by the `os.walk` scan in `discover_trust_stores`:
its joined path, whether `open()`/`read()` succeeds (exceptions are logged
and the file skipped), and its content. -/
structure FSFile where
  path : Bytes
  readable : Bool
  content : Bytes
deriving DecidableEq

/-- A discovered trust store, embedding the dicts appended to the
`trust_stores` list in `discover_trust_stores` (lines 60-64 and 87-92 of
the source): path, format, certificate count, and for keystores the
password that opened them. -/
structure TrustStore where
  path : Bytes
  type : StoreType
  cert_count : Nat
  password : Option String
deriving DecidableEq

/-- The Python file-name test `file.endswith((".pem", ".crt", ".cert"))`.
The source tests the basename; since `os.path.join` inserts a slash, the
joined path has the same extension suffixes as the basename. -/
def hasPemExt (p : Bytes) : Bool :=
  ".pem".toList.isSuffixOf p || ".crt".toList.isSuffixOf p ||
    ".cert".toList.isSuffixOf p

/-- The Python file-name test
`file.endswith((".jks", ".keystore", ".truststore"))`. -/
def hasJksExt (p : Bytes) : Bool :=
  ".jks".toList.isSuffixOf p || ".keystore".toList.isSuffixOf p ||
    ".truststore".toList.isSuffixOf p

/-- The password list tried for Java keystores, in source order
(line 76 of `trust_chain_validator.py`). -/
def passwordList : List String := ["changeit", "password", "truststore"]

/-- Embeds the inner password loop of JKS discovery.  The oracle `kt`
models one `keytool -list -keystore p -storepass pw` invocation: `some n`
when the subprocess returns exit code 0, with `n` the number of
`Certificate fingerprint` lines in its stdout; `none` when the exit code
is nonzero or the invocation raises (the `except` branch logs and the loop
moves on to the next password).  The first success wins and the loop
breaks. -/
def tryPasswords (kt : Bytes → String → Option Nat) (p : Bytes) :
    List String → Option (String × Nat)
  | [] => none
  | pw :: rest =>
    match kt p pw with
    | some n => some (pw, n)
    | none => tryPasswords kt p rest

/-- Contribution of a single file to the PEM scan (first `os.walk` loop,
lines 51-66): files with a PEM extension that can be read and whose
content contains the marker are recorded with the marker count as
`cert_count`; all others are skipped. -/
def pemRecord (f : FSFile) : Option TrustStore :=
  if hasPemExt f.path then
    if f.readable then
      if containsMarker f.content then
        some ⟨f.path, .pem, countMarker f.content, none⟩
      else none
    else none
  else none

/-- The PEM half of `discover_trust_stores`: the first `os.walk` loop in
file order. -/
def discoverPemScan (files : List FSFile) : List TrustStore :=
  files.filterMap pemRecord

/-- Contribution of a single file to the JKS scan (second `os.walk` loop,
lines 71-95): files with a keystore extension are recorded with the first
password from `passwordList` accepted by `keytool`, or skipped when none
succeeds. -/
def jksRecord (kt : Bytes → String → Option Nat) (f : FSFile) :
    Option TrustStore :=
  if hasJksExt f.path then
    (tryPasswords kt f.path passwordList).map
      (fun r => ⟨f.path, .jks, r.2, some r.1⟩)
  else none

/-- The JKS half of `discover_trust_stores`. -/
def discoverJksScan (kt : Bytes → String → Option Nat)
    (files : List FSFile) : List TrustStore :=
  files.filterMap (jksRecord kt)

/-- Embeds `TrustChainValidator.discover_trust_stores` (lines 46-100):
the PEM scan over the tree, followed by the JKS scan when `keytool` is
available (`keytoolAvailable` models whether `keytool -help` raises
`FileNotFoundError`). -/
def discoverTrustStores (kt : Bytes → String → Option Nat)
    (keytoolAvailable : Bool) (files : List FSFile) : List TrustStore :=
  discoverPemScan files ++
    (if keytoolAvailable then discoverJksScan kt files else [])

/-! ## Trust-store validator: tests and orchestration -/

/-- Outcome of the TLS handshake attempted by `test_webserver_connection`:
success carries the extracted certificate details as an opaque handle; the
two failure constructors mirror the `ssl.SSLError` and generic `Exception`
handlers, carrying the exception message. -/
inductive WebOutcome where
  | success (info : Nat)
  | sslError (msg : String)
  | otherError (msg : String)
deriving DecidableEq

/-- Outcome of the `requests.get` call in `test_mtls_connection`: an HTTP
response with status code, parsed JSON body (opaque handle) and text, or
an `requests.exceptions.SSLError`, or any other exception. -/
inductive MtlsOutcome where
  | response (status : Nat) (body : Nat) (text : String)
  | sslError (msg : String)
  | otherError (msg : String)
deriving DecidableEq

/-- One test-case record appended to `test_results["webserver"]` or
`test_results["mtls"]`: the trust-store path, the final `status` string,
the `error` message when failed, and the success payload (certificate
info, or parsed mTLS response body) as an opaque handle.  The timestamp
and the echo of the target host and client-credential paths are elided. -/
structure VTestCase where
  trust_store : Bytes
  status : String
  error : Option String
  payload : Option Nat
deriving DecidableEq

/-- The mutable `test_results` structure of `TrustChainValidator`:
the two per-category test-case lists and the summary counters.  The
`start_time` and `end_time` fields are elided. -/
structure Results where
  webserver : List VTestCase
  mtls : List VTestCase
  total_tests : Nat
  passed : Nat
  failed : Nat
deriving DecidableEq

/-- The `test_results` value installed by `__init__`. -/
def initResults : Results := ⟨[], [], 0, 0, 0⟩

/-- The configuration fields of the validator consulted by the embedded
functions: the client certificate and key paths (empty list modelling a
falsy empty string).  Host, port, output path and verbosity are elided. -/
structure Config where
  clientCert : Bytes
  clientKey : Bytes

/-- External world of the validator: `os.path.exists`, and the outcome of
the network operation attempted for each trust store by the two test
functions. -/
structure VEnv where
  pathExists : Bytes → Bool
  webOutcome : TrustStore → WebOutcome
  mtlsOutcome : TrustStore → MtlsOutcome

/-- Embeds `TrustChainValidator.test_webserver_connection` (lines
102-153): increment `total_tests`, attempt the handshake, record a passed
or failed test case (with the `SSL Error: `/`Error: ` message prefixes of
the two handlers), append it to the webserver list, and return whether the
status is `passed`. -/
def testWebserverConnection (env : VEnv) (ts : TrustStore) (r : Results) :
    Results × Bool :=
  let r := { r with total_tests := r.total_tests + 1 }
  let step : VTestCase × Results :=
    match env.webOutcome ts with
    | .success info =>
        (⟨ts.path, "passed", none, some info⟩,
         { r with passed := r.passed + 1 })
    | .sslError m =>
        (⟨ts.path, "failed", some ("SSL Error: " ++ m), none⟩,
         { r with failed := r.failed + 1 })
    | .otherError m =>
        (⟨ts.path, "failed", some ("Error: " ++ m), none⟩,
         { r with failed := r.failed + 1 })
  let r := { step.2 with webserver := step.2.webserver ++ [step.1] }
  (r, decide (step.1.status = "passed"))

/-- Embeds `TrustChainValidator.test_mtls_connection` (lines 155-208).
When the configured client certificate or key file does not exist the
function returns `False` at once, touching neither the counters nor the
`mtls` list.  Otherwise it increments `total_tests`, performs the HTTPS
GET, treats status 200 as the sole success (storing the parsed body),
records any other status or exception as a failure, appends the test case
and returns whether it passed. -/
def testMtlsConnection (env : VEnv) (cfg : Config) (ts : TrustStore)
    (r : Results) : Results × Bool :=
  if !(env.pathExists cfg.clientCert && env.pathExists cfg.clientKey) then
    (r, false)
  else
    let r := { r with total_tests := r.total_tests + 1 }
    let step : VTestCase × Results :=
      match env.mtlsOutcome ts with
      | .response st body text =>
          if st = 200 then
            (⟨ts.path, "passed", none, some body⟩,
             { r with passed := r.passed + 1 })
          else
            (⟨ts.path, "failed",
              some ("HTTP Error: " ++ toString st ++ " - " ++ text),
              none⟩,
             { r with failed := r.failed + 1 })
      | .sslError m =>
          (⟨ts.path, "failed", some ("SSL Error: " ++ m), none⟩,
           { r with failed := r.failed + 1 })
      | .otherError m =>
          (⟨ts.path, "failed", some ("Error: " ++ m), none⟩,
           { r with failed := r.failed + 1 })
    let r := { step.2 with mtls := step.2.mtls ++ [step.1] }
    (r, decide (step.1.status = "passed"))

/-- The body of the `for trust_store in trust_stores` loop of `run_tests`
(lines 222-230): run the webserver test, clear `success` when it fails,
and when both configured client-credential paths are truthy (non-empty
strings) also run the mTLS test, clearing `success` when it returns
`False`. -/
def runTestsStep (env : VEnv) (cfg : Config) (acc : Results × Bool)
    (ts : TrustStore) : Results × Bool :=
  let w := testWebserverConnection env ts acc.1
  let ok := if w.2 then acc.2 else false
  if !cfg.clientCert.isEmpty && !cfg.clientKey.isEmpty then
    let m := testMtlsConnection env cfg ts w.1
    (m.1, if m.2 then ok else false)
  else
    (w.1, ok)

/-- Embeds `TrustChainValidator.run_tests` (lines 210-249) applied to the
discovered trust stores: with no trust stores it returns `False` at once;
otherwise it folds the per-store loop body over the stores starting from
the freshly initialised results and `success = True`.  Writing the JSON
report and printing the summary are elided. -/
def runTests (env : VEnv) (cfg : Config) (stores : List TrustStore) :
    Results × Bool :=
  if stores.isEmpty then (initResults, false)
  else stores.foldl (runTestsStep env cfg) (initResults, true)

/-- The Boolean outcome of the webserver handshake for one trust store:
true exactly when `test_webserver_connection` records a passed test. -/
def webPassed (env : VEnv) (ts : TrustStore) : Bool :=
  match env.webOutcome ts with
  | .success _ => true
  | _ => false

/-- The Boolean outcome of the mTLS request for one trust store, assuming
the client credentials exist on disk: true exactly when the HTTPS GET
returns status 200. -/
def mtlsPassed (env : VEnv) (ts : TrustStore) : Bool :=
  match env.mtlsOutcome ts with
  | .response st _ _ => decide (st = 200)
  | _ => false

/-- The Python truthiness test `self.config.client_cert and
self.config.client_key` guarding the mTLS test inside `run_tests`. -/
def mtlsConfigured (cfg : Config) : Bool :=
  !cfg.clientCert.isEmpty && !cfg.clientKey.isEmpty

/-- The existence check `os.path.exists` on both configured client
credential files, as performed at the top of `test_mtls_connection`. -/
def credsOnDisk (env : VEnv) (cfg : Config) : Bool :=
  env.pathExists cfg.clientCert && env.pathExists cfg.clientKey

/-- Net contribution of one trust store to the `success` Boolean of
`run_tests`: the webserver test must pass, and when the mTLS test is
configured, the client credentials must exist on disk and the mTLS
request must succeed, because a skipped mTLS test returns `False` and
clears `success`. -/
def storeOutcome (env : VEnv) (cfg : Config) (ts : TrustStore) : Bool :=
  webPassed env ts &&
    (if mtlsConfigured cfg then credsOnDisk env cfg && mtlsPassed env ts
     else true)

/-- The summary invariant of the result structure: passed and failed sum
to the test total, and the total equals the number of recorded webserver
plus mTLS test cases. -/
def resultsInv (r : Results) : Prop :=
  r.passed + r.failed = r.total_tests ∧
    r.total_tests = r.webserver.length + r.mtls.length

/-- On-disk state of the two client-credential files consulted by
`generate_client_cert`: `none` when the file is absent, `some b` when it
holds bytes `b`. -/
structure CredFS where
  certFile : Option Bytes
  keyFile : Option Bytes
deriving DecidableEq

/-- Embeds `TrustChainValidator.generate_client_cert` (lines 251-299).
When both files already exist the function is a no-op returning `True`.
Otherwise it generates a fresh RSA key pair and self-signed certificate
and writes both files; `gen` supplies the PEM bytes the cryptography
library produces (`some (certBytes, keyBytes)`), or `none` when
generation raises, in which case the failure is logged, nothing is
written and `False` is returned. -/
def generateClientCert (gen : Option (Bytes × Bytes)) (fs : CredFS) :
    CredFS × Bool :=
  if fs.certFile.isSome && fs.keyFile.isSome then (fs, true)
  else
    match gen with
    | some g => (⟨some g.1, some g.2⟩, true)
    | none => (fs, false)

/-! ## Info server

Embedding of `ssl_test_website/src/app.py`. -/

/-- Embeds the chain-file loop of `get_certificate_chain_info` (lines
64-72).  Each iteration parses the first certificate of `current` with
`crypto.load_certificate` (the oracle `load`; `none` models a raised
exception, which aborts the whole chain parse via the handler on line 81,
discarding the certificates collected so far), then re-slices `current`
from the next marker occurrence at index 1 or later; when there is none,
Python slices `current[-1:]`, the single remaining byte contains no
marker, and the loop breaks. -/
def chainLoop (load : Bytes → Option Nat) : Bytes → Option (List Nat)
  | [] => some []
  | c :: rest =>
    match load (c :: rest) with
    | none => none
    | some cert =>
      match findMarker rest with
      | none => some [cert]
      | some j =>
        let nxt := (c :: rest).drop (j + 1)
        if containsMarker nxt then
          (chainLoop load nxt).map (fun l => cert :: l)
        else some [cert]
termination_by s => s.length
decreasing_by
  simp only [List.length_drop, List.length_cons]
  omega

/-- Embeds the CA-trust-store loop of `get_certificate_chain_info` (lines
109-121).  Unlike the chain loop, the `try` sits inside the loop: a
failing `load` breaks out keeping the details already collected, and the
marker search compares the found position against `-1` explicitly. -/
def caLoop (load : Bytes → Option Nat) (details : Nat → Nat) :
    Bytes → List Nat
  | [] => []
  | c :: rest =>
    match load (c :: rest) with
    | none => []
    | some cert =>
      match findMarker rest with
      | none => [details cert]
      | some j => details cert :: caLoop load details ((c :: rest).drop (j + 1))
termination_by s => s.length
decreasing_by
  simp only [List.length_drop, List.length_cons]
  omega

/-- Result of the unverified TLS self-connection of
`get_certificate_chain_info` (lines 87-94): the negotiated protocol
version and cipher suite, or the exception message recorded in the
`protocol_version` field. -/
inductive TlsProbe where
  | ok (version : String) (cipher : String)
  | err (msg : String)
deriving DecidableEq

/-- External world of the info server: the contents of the three fixed
certificate paths (`none` modelling `FileNotFoundError` or any other
failure of `open`), the certificate loader, the detail extractor
`get_certificate_details` (opaque, total), and the TLS self-probe. -/
structure InfoEnv where
  serverCrt : Option Bytes
  chainFile : Option Bytes
  caFile : Option Bytes
  loadCert : Bytes → Option Nat
  certDetails : Nat → Nat
  tlsProbe : TlsProbe

/-- The JSON object built by `get_certificate_chain_info` on the success
path. -/
structure ChainInfo where
  server_certificate : Nat
  intermediate_ca : Option Nat
  root_ca : Option Nat
  protocol_version : Option String
  cipher_suite : Option String
  chain_length : Nat
  ca_trust_store : Option (List Nat)
deriving DecidableEq

/-- Embeds `get_certificate_chain_info` (lines 51-142).  Failure to read
or parse the server certificate escapes to the outer handler, which
returns an error JSON body whose message text the embedding leaves
abstract, hence `Except Unit`.  The chain file is optional: absence, or an exception
inside the chain loop, leaves both CA fields as `None`.  The chain length
starts at 1 and grows by one for each populated CA field (the detail
dicts are non-empty, hence truthy).  The CA trust store is parsed only
when the file exists and is non-empty. -/
def getCertificateChainInfo (env : InfoEnv) : Except Unit ChainInfo :=
  match env.serverCrt with
  | none => .error ()
  | some sdata =>
    match env.loadCert sdata with
    | none => .error ()
    | some sc =>
      let cas : Option Nat × Option Nat :=
        match env.chainFile with
        | none => (none, none)
        | some cdata =>
          match chainLoop env.loadCert cdata with
          | none => (none, none)
          | some certs =>
            ((certs[0]?).map env.certDetails, (certs[1]?).map env.certDetails)
      let chainLen :=
        1 + (if cas.1.isSome then 1 else 0) + (if cas.2.isSome then 1 else 0)
      let proto : Option String × Option String :=
        match env.tlsProbe with
        | .ok v c => (some v, some c)
        | .err m => (some ("Error getting protocol version: " ++ m), none)
      let ca : Option (List Nat) :=
        match env.caFile with
        | none => none
        | some cad =>
          if cad.isEmpty then none
          else some (caLoop env.loadCert env.certDetails cad)
      .ok ⟨env.certDetails sc, cas.1, cas.2, proto.1, proto.2, chainLen, ca⟩

/-- Embeds `request.headers.get(k)` restricted to exact key match: the
value of the first header named `k`, if any.  Case folding of header
names is delegated to the web framework and elided. -/
def headerLookup (hs : List (String × String)) (k : String) :
    Option String :=
  (hs.find? (fun p => p.1 == k)).map (fun p => p.2)

/-- Embeds `request.headers.get(k, d)`: the header value with a default. -/
def headersGetD (hs : List (String × String)) (k d : String) : String :=
  (headerLookup hs k).getD d

/-- The dict built by `get_client_cert_info` (lines 144-155). -/
structure ClientCertInfo where
  has_client_cert : Bool
  client_verify : String
  client_dn : String
deriving DecidableEq

/-- Embeds `get_client_cert_info`: both headers default to the literal
string `None`, and `has_client_cert` is flipped to `True` exactly when
the verify header value equals the literal string `SUCCESS`. -/
def getClientCertInfo (hs : List (String × String)) : ClientCertInfo :=
  let cv := headersGetD hs "X-SSL-Client-Verify" "None"
  let dn := headersGetD hs "X-SSL-Client-DN" "None"
  ⟨decide (cv = "SUCCESS"), cv, dn⟩

/-- The JSON object returned by the `/mtls` endpoint. -/
structure MtlsResponse where
  server_certificate : Option Nat
  ca_trust_store : Option (List Nat)
  client_certificate : ClientCertInfo
deriving DecidableEq

/-- Embeds the `/mtls` handler `mtls_info` (lines 161-173): it builds the
chain info and reads two of its keys with `dict.get`, which yields `None`
for both when `get_certificate_chain_info` produced an error body, and
attaches the client-certificate info derived from the request headers. -/
def mtlsInfo (env : InfoEnv) (hs : List (String × String)) :
    MtlsResponse :=
  match getCertificateChainInfo env with
  | .error _ => ⟨none, none, getClientCertInfo hs⟩
  | .ok ci =>
    ⟨some ci.server_certificate, ci.ca_trust_store, getClientCertInfo hs⟩

/-! ## Concrete instances used in closed witnesses and counterexamples -/

/-- A sample discovered PEM trust store. -/
def tsSample : TrustStore := ⟨"/scan/ca.pem".toList, .pem, 1, none⟩

/-- A sample configuration with both client-credential paths set (truthy
non-empty strings), mirroring the argparse defaults. -/
def cfgSample : Config :=
  ⟨"auto-trust-store-manager/test-suite/certs/client.crt".toList,
   "auto-trust-store-manager/test-suite/certs/client.key".toList⟩

/-- World where both credential files exist and every network operation
succeeds. -/
def envAllPass : VEnv :=
  ⟨fun _ => true, fun _ => .success 7, fun _ => .response 200 5 ""⟩

/-- World where every handshake succeeds but no file exists on disk, so
each mTLS attempt hits the skip branch. -/
def envNoCreds : VEnv :=
  ⟨fun _ => false, fun _ => .success 7, fun _ => .response 200 5 ""⟩

/-- A chain file holding exactly one PEM certificate block. -/
def chainOne : Bytes := certMarker ++ "A\n".toList

/-- A chain file holding exactly two PEM certificate blocks. -/
def chainTwo : Bytes := chainOne ++ certMarker ++ "B\n".toList

/-- A chain file holding exactly three PEM certificate blocks. -/
def chainThree : Bytes := chainTwo ++ certMarker ++ "C\n".toList

/-- A concrete certificate loader that always succeeds, returning the
length of its input as the certificate handle. -/
def lengthLoad : Bytes → Option Nat := fun b => some b.length

/-- Info-server world with a readable server certificate and no chain or
CA file. -/
def infoEnvNoChain : InfoEnv := ⟨some [], none, none, lengthLoad, id, .err ""⟩

/-- Info-server world whose chain file holds one certificate. -/
def infoEnvOne : InfoEnv :=
  ⟨some [], some chainOne, none, lengthLoad, id, .err ""⟩

/-- Info-server world whose chain file holds two certificates. -/
def infoEnvTwo : InfoEnv :=
  ⟨some [], some chainTwo, none, lengthLoad, id, .err ""⟩

/-- Info-server world whose chain file holds three certificates. -/
def infoEnvThree : InfoEnv :=
  ⟨some [], some chainThree, none, lengthLoad, id, .err ""⟩

/-- A scanned PEM bundle file with one certificate block. -/
def pemFileSample : FSFile :=
  ⟨"/scan/root.pem".toList, true, certMarker ++ "x\n".toList⟩

/-- A scanned Java keystore file. -/
def jksFileSample : FSFile := ⟨"/scan/store.jks".toList, true, []⟩

/-- A keytool oracle accepting only the password `password`, with three
certificate entries. -/
def ktOnlyPassword : Bytes → String → Option Nat :=
  fun _ pw => if pw = "password" then some 3 else none

/-! ## Marker-scanning lemmas -/

theorem isPrefixOf_length_le (l₁ : Bytes) :
    ∀ l₂ : Bytes, l₁.isPrefixOf l₂ = true → l₁.length ≤ l₂.length := by
  induction l₁ with
  | nil => intro l₂ _; simp
  | cons a as ih =>
    intro l₂ h
    cases l₂ with
    | nil => simp [List.isPrefixOf] at h
    | cons b bs =>
      simp only [List.isPrefixOf, Bool.and_eq_true] at h
      simp only [List.length_cons]
      exact Nat.succ_le_succ (ih bs h.2)

theorem occursAt_cons_succ (c : Char) (t : Bytes) (i : Nat) :
    occursAt (c :: t) (i + 1) = occursAt t i := rfl

theorem occursAt_drop (s : Bytes) (k i : Nat) :
    occursAt (s.drop k) i = occursAt s (k + i) := by
  unfold occursAt
  rw [List.drop_drop, Nat.add_comm]

theorem occursAt_bound {s : Bytes} {i : Nat} (h : occursAt s i = true) :
    i + certMarker.length ≤ s.length := by
  have hle := isPrefixOf_length_le certMarker (s.drop i) h
  rw [List.length_drop] at hle
  have hm : 0 < certMarker.length := by decide
  omega

theorem findMarker_none_iff (s : Bytes) :
    findMarker s = none ↔ ∀ i, occursAt s i = false := by
  induction s with
  | nil =>
    constructor
    · intro _ i
      simp only [occursAt, List.drop_nil]
      decide
    · intro _; rfl
  | cons c t ih =>
    constructor
    · intro h i
      by_cases hp : certMarker.isPrefixOf (c :: t) = true
      · simp [findMarker, hp] at h
      · cases i with
        | zero =>
          show certMarker.isPrefixOf (c :: t) = false
          exact Bool.eq_false_iff.mpr hp
        | succ i =>
          rw [occursAt_cons_succ]
          have ht : findMarker t = none := by
            simp only [findMarker, hp] at h
            simpa using h
          exact (ih.mp ht) i
    · intro h
      have hp : certMarker.isPrefixOf (c :: t) = false := h 0
      have ht : findMarker t = none :=
        ih.mpr (fun i => by
          have := h (i + 1)
          rwa [occursAt_cons_succ] at this)
      simp [findMarker, hp, ht]

theorem findMarker_some_of {s : Bytes} {j : Nat} (hj : occursAt s j = true)
    (hmin : ∀ i, i < j → occursAt s i = false) : findMarker s = some j := by
  induction s generalizing j with
  | nil =>
    simp only [occursAt, List.drop_nil] at hj
    exact absurd hj (by decide)
  | cons c t ih =>
    cases j with
    | zero =>
      have hp : certMarker.isPrefixOf (c :: t) = true := hj
      simp [findMarker, hp]
    | succ j =>
      have hp : certMarker.isPrefixOf (c :: t) = false := hmin 0 (Nat.succ_pos j)
      have ht : findMarker t = some j := by
        apply ih
        · rwa [occursAt_cons_succ] at hj
        · intro i hi
          have := hmin (i + 1) (Nat.succ_lt_succ hi)
          rwa [occursAt_cons_succ] at this
      simp [findMarker, hp, ht]

theorem occursAt_iff_mem_positions (s : Bytes) (i : Nat) :
    occursAt s i = true ↔ i ∈ markerPositions s := by
  unfold markerPositions
  rw [List.mem_filter, List.mem_range]
  constructor
  · intro h
    refine ⟨?_, h⟩
    have := occursAt_bound h
    have hm : 0 < certMarker.length := by decide
    omega
  · exact fun h => h.2

theorem markerPositions_pairwise (s : Bytes) :
    (markerPositions s).Pairwise (· < ·) :=
  (List.pairwise_lt_range s.length).filter _

theorem containsMarker_of_occursAt {s : Bytes} {i : Nat}
    (h : occursAt s i = true) : containsMarker s = true := by
  unfold containsMarker
  cases hf : findMarker s with
  | none =>
    have := (findMarker_none_iff s).mp hf i
    rw [this] at h
    exact absurd h (by decide)
  | some j => rfl

theorem containsMarker_iff_countMarker (s : Bytes) :
    containsMarker s = true ↔ 1 ≤ countMarker s := by
  cases s with
  | nil => simp [containsMarker, findMarker, countMarker]
  | cons c t =>
    unfold containsMarker
    cases hf : findMarker (c :: t) with
    | none => simp [countMarker, hf]
    | some j => simp [countMarker, hf]

/-! ## Chain-loop lemmas

Behaviour of the chain-file loop on well-formed PEM bundles, where a
well-formed bundle with `n` certificates is one whose marker occurrences
sit exactly at the starts of the `n` certificate blocks. -/

theorem chainLoop_core_one (load : Bytes → Option Nat) (s : Bytes) (c₁ : Nat)
    (h0 : occursAt s 0 = true) (hno : ∀ i, 0 < i → occursAt s i = false)
    (hload : load s = some c₁) :
    chainLoop load s = some [c₁] := by
  cases s with
  | nil => exact absurd h0 (by decide)
  | cons c t =>
    have ht : findMarker t = none :=
      (findMarker_none_iff t).mpr (fun i => by
        have h' := hno (i + 1) (Nat.succ_pos i)
        rwa [occursAt_cons_succ] at h')
    simp [chainLoop, hload, ht]

theorem chainLoop_core_two (load : Bytes → Option Nat) (s : Bytes)
    (p c₁ c₂ : Nat) (hp0 : 0 < p)
    (h0 : occursAt s 0 = true) (hp : occursAt s p = true)
    (hno : ∀ i, 0 < i → i ≠ p → occursAt s i = false)
    (h₁ : load s = some c₁) (h₂ : load (s.drop p) = some c₂) :
    chainLoop load s = some [c₁, c₂] := by
  cases s with
  | nil => exact absurd h0 (by decide)
  | cons c t =>
    have hpm1 : p - 1 + 1 = p := Nat.succ_pred_eq_of_pos hp0
    have ht : findMarker t = some (p - 1) := by
      apply findMarker_some_of
      · have h' : occursAt (c :: t) (p - 1 + 1) = true := by rw [hpm1]; exact hp
        rwa [occursAt_cons_succ] at h'
      · intro i hi
        have h' := hno (i + 1) (Nat.succ_pos i) (by omega)
        rwa [occursAt_cons_succ] at h'
    have hcm : containsMarker ((c :: t).drop p) = true := by
      apply containsMarker_of_occursAt (i := 0)
      rw [occursAt_drop, Nat.add_zero]
      exact hp
    have hrest : chainLoop load ((c :: t).drop p) = some [c₂] := by
      apply chainLoop_core_one
      · rw [occursAt_drop, Nat.add_zero]; exact hp
      · intro i hi
        rw [occursAt_drop]
        exact hno (p + i) (by omega) (by omega)
      · exact h₂
    simp only [chainLoop, h₁, ht]
    rw [hpm1]
    simp [hcm, hrest]

theorem chainLoop_core_three (load : Bytes → Option Nat) (s : Bytes)
    (p q c₁ c₂ c₃ : Nat) (hp0 : 0 < p) (hpq : p < q)
    (h0 : occursAt s 0 = true) (hp : occursAt s p = true)
    (hq : occursAt s q = true)
    (hno : ∀ i, 0 < i → i ≠ p → i ≠ q → occursAt s i = false)
    (h₁ : load s = some c₁) (h₂ : load (s.drop p) = some c₂)
    (h₃ : load (s.drop q) = some c₃) :
    chainLoop load s = some [c₁, c₂, c₃] := by
  cases s with
  | nil => exact absurd h0 (by decide)
  | cons c t =>
    have hpm1 : p - 1 + 1 = p := Nat.succ_pred_eq_of_pos hp0
    have ht : findMarker t = some (p - 1) := by
      apply findMarker_some_of
      · have h' : occursAt (c :: t) (p - 1 + 1) = true := by rw [hpm1]; exact hp
        rwa [occursAt_cons_succ] at h'
      · intro i hi
        have h' := hno (i + 1) (Nat.succ_pos i) (by omega) (by omega)
        rwa [occursAt_cons_succ] at h'
    have hcm : containsMarker ((c :: t).drop p) = true := by
      apply containsMarker_of_occursAt (i := 0)
      rw [occursAt_drop, Nat.add_zero]
      exact hp
    have hrest : chainLoop load ((c :: t).drop p) = some [c₂, c₃] := by
      apply chainLoop_core_two load ((c :: t).drop p) (q - p) c₂ c₃ (by omega)
      · rw [occursAt_drop, Nat.add_zero]; exact hp
      · rw [occursAt_drop]
        have he : p + (q - p) = q := by omega
        rw [he]; exact hq
      · intro i hi hiq
        rw [occursAt_drop]
        exact hno (p + i) (by omega) (by omega) (by omega)
      · exact h₂
      · rw [List.drop_drop]
        have he : p + (q - p) = q := by omega
        rw [he]; exact h₃
    simp only [chainLoop, h₁, ht]
    rw [hpm1]
    simp [hcm, hrest]

theorem chainLoop_positions_one (load : Bytes → Option Nat) (s : Bytes)
    (c₁ : Nat) (hpos : markerPositions s = [0]) (h₁ : load s = some c₁) :
    chainLoop load s = some [c₁] := by
  have hocc : ∀ i, occursAt s i = true ↔ i ∈ ([0] : List Nat) := fun i => by
    rw [occursAt_iff_mem_positions, hpos]
  apply chainLoop_core_one load s c₁
  · exact (hocc 0).mpr (by simp)
  · intro i hi
    cases hb : occursAt s i with
    | false => rfl
    | true =>
      have hm := (hocc i).mp hb
      simp at hm
      omega
  · exact h₁

theorem chainLoop_positions_two (load : Bytes → Option Nat) (s : Bytes)
    (p c₁ c₂ : Nat) (hpos : markerPositions s = [0, p])
    (h₁ : load s = some c₁) (h₂ : load (s.drop p) = some c₂) :
    chainLoop load s = some [c₁, c₂] := by
  have hocc : ∀ i, occursAt s i = true ↔ i ∈ ([0, p] : List Nat) := fun i => by
    rw [occursAt_iff_mem_positions, hpos]
  have hpw := markerPositions_pairwise s
  rw [hpos] at hpw
  have hp0 : 0 < p := by
    rcases List.pairwise_cons.mp hpw with ⟨hfst, _⟩
    exact hfst p (by simp)
  apply chainLoop_core_two load s p c₁ c₂ hp0
  · exact (hocc 0).mpr (by simp)
  · exact (hocc p).mpr (by simp)
  · intro i hi hip
    cases hb : occursAt s i with
    | false => rfl
    | true =>
      have hm := (hocc i).mp hb
      simp at hm
      rcases hm with h | h <;> omega
  · exact h₁
  · exact h₂

theorem chainLoop_positions_three (load : Bytes → Option Nat) (s : Bytes)
    (p q c₁ c₂ c₃ : Nat) (hpos : markerPositions s = [0, p, q])
    (h₁ : load s = some c₁) (h₂ : load (s.drop p) = some c₂)
    (h₃ : load (s.drop q) = some c₃) :
    chainLoop load s = some [c₁, c₂, c₃] := by
  have hocc : ∀ i, occursAt s i = true ↔ i ∈ ([0, p, q] : List Nat) :=
    fun i => by rw [occursAt_iff_mem_positions, hpos]
  have hpw := markerPositions_pairwise s
  rw [hpos] at hpw
  rcases List.pairwise_cons.mp hpw with ⟨hfst, hpw'⟩
  rcases List.pairwise_cons.mp hpw' with ⟨hsnd, _⟩
  have hp0 : 0 < p := hfst p (by simp)
  have hpq : p < q := hsnd q (by simp)
  apply chainLoop_core_three load s p q c₁ c₂ c₃ hp0 hpq
  · exact (hocc 0).mpr (by simp)
  · exact (hocc p).mpr (by simp)
  · exact (hocc q).mpr (by simp)
  · intro i hi hip hiq
    cases hb : occursAt s i with
    | false => rfl
    | true =>
      have hm := (hocc i).mp hb
      simp at hm
      rcases hm with h | h | h <;> omega
  · exact h₁
  · exact h₂
  · exact h₃

/-! ## Validator counter and outcome lemmas -/

theorem testWebserverConnection_counts (env : VEnv) (ts : TrustStore)
    (r : Results) :
    (testWebserverConnection env ts r).1.total_tests = r.total_tests + 1 ∧
    (((testWebserverConnection env ts r).1.passed = r.passed + 1 ∧
      (testWebserverConnection env ts r).1.failed = r.failed) ∨
     ((testWebserverConnection env ts r).1.failed = r.failed + 1 ∧
      (testWebserverConnection env ts r).1.passed = r.passed)) ∧
    (testWebserverConnection env ts r).1.webserver.length =
      r.webserver.length + 1 ∧
    (testWebserverConnection env ts r).1.mtls = r.mtls := by
  cases h : env.webOutcome ts <;> simp [testWebserverConnection, h]

theorem testWebserverConnection_snd (env : VEnv) (ts : TrustStore)
    (r : Results) :
    (testWebserverConnection env ts r).2 = webPassed env ts := by
  cases h : env.webOutcome ts <;> simp [testWebserverConnection, webPassed, h]

theorem testMtlsConnection_skip (env : VEnv) (cfg : Config) (ts : TrustStore)
    (r : Results) (h : credsOnDisk env cfg = false) :
    testMtlsConnection env cfg ts r = (r, false) := by
  unfold credsOnDisk at h
  simp [testMtlsConnection, h]

theorem testMtlsConnection_counts (env : VEnv) (cfg : Config)
    (ts : TrustStore) (r : Results) (h : credsOnDisk env cfg = true) :
    (testMtlsConnection env cfg ts r).1.total_tests = r.total_tests + 1 ∧
    (((testMtlsConnection env cfg ts r).1.passed = r.passed + 1 ∧
      (testMtlsConnection env cfg ts r).1.failed = r.failed) ∨
     ((testMtlsConnection env cfg ts r).1.failed = r.failed + 1 ∧
      (testMtlsConnection env cfg ts r).1.passed = r.passed)) ∧
    (testMtlsConnection env cfg ts r).1.mtls.length = r.mtls.length + 1 ∧
    (testMtlsConnection env cfg ts r).1.webserver = r.webserver := by
  unfold credsOnDisk at h
  cases ho : env.mtlsOutcome ts with
  | response st body text =>
    by_cases hst : st = 200 <;> simp [testMtlsConnection, h, ho, hst]
  | sslError m => simp [testMtlsConnection, h, ho]
  | otherError m => simp [testMtlsConnection, h, ho]

theorem testMtlsConnection_snd (env : VEnv) (cfg : Config) (ts : TrustStore)
    (r : Results) :
    (testMtlsConnection env cfg ts r).2 =
      (credsOnDisk env cfg && mtlsPassed env ts) := by
  cases hc : credsOnDisk env cfg with
  | false => rw [testMtlsConnection_skip env cfg ts r hc]; simp
  | true =>
    have hc' := hc
    unfold credsOnDisk at hc'
    cases ho : env.mtlsOutcome ts with
    | response st body text =>
      by_cases hst : st = 200 <;>
        simp [testMtlsConnection, mtlsPassed, hc, hc', ho, hst]
    | sslError m => simp [testMtlsConnection, mtlsPassed, hc, hc', ho]
    | otherError m => simp [testMtlsConnection, mtlsPassed, hc, hc', ho]

theorem resultsInv_web (env : VEnv) (ts : TrustStore) (r : Results)
    (h : resultsInv r) : resultsInv (testWebserverConnection env ts r).1 := by
  obtain ⟨ht, hd, hw, hm⟩ := testWebserverConnection_counts env ts r
  obtain ⟨h1, h2⟩ := h
  constructor
  · rcases hd with ⟨hp, hf⟩ | ⟨hf, hp⟩ <;> omega
  · rw [ht, hw, hm]
    omega

theorem resultsInv_mtls (env : VEnv) (cfg : Config) (ts : TrustStore)
    (r : Results) (h : resultsInv r) :
    resultsInv (testMtlsConnection env cfg ts r).1 := by
  cases hc : credsOnDisk env cfg with
  | false => rw [testMtlsConnection_skip env cfg ts r hc]; exact h
  | true =>
    obtain ⟨ht, hd, hm, hw⟩ := testMtlsConnection_counts env cfg ts r hc
    obtain ⟨h1, h2⟩ := h
    constructor
    · rcases hd with ⟨hp, hf⟩ | ⟨hf, hp⟩ <;> omega
    · rw [ht, hw, hm]
      omega

theorem runTestsStep_fst_inv (env : VEnv) (cfg : Config)
    (acc : Results × Bool) (ts : TrustStore) (h : resultsInv acc.1) :
    resultsInv (runTestsStep env cfg acc ts).1 := by
  cases hcfg : (!cfg.clientCert.isEmpty && !cfg.clientKey.isEmpty) with
  | true =>
    simp only [runTestsStep, hcfg, if_true]
    exact resultsInv_mtls env cfg ts _ (resultsInv_web env ts acc.1 h)
  | false =>
    simp only [runTestsStep, hcfg, Bool.false_eq_true, if_false]
    exact resultsInv_web env ts acc.1 h

theorem foldl_runTestsStep_inv (env : VEnv) (cfg : Config)
    (stores : List TrustStore) :
    ∀ acc : Results × Bool, resultsInv acc.1 →
      resultsInv (stores.foldl (runTestsStep env cfg) acc).1 := by
  induction stores with
  | nil => intro acc h; simpa using h
  | cons ts rest ih =>
    intro acc h
    rw [List.foldl_cons]
    exact ih _ (runTestsStep_fst_inv env cfg acc ts h)

theorem runTests_fst_inv (env : VEnv) (cfg : Config)
    (stores : List TrustStore) : resultsInv (runTests env cfg stores).1 := by
  cases he : stores.isEmpty with
  | true => simp [runTests, he, initResults, resultsInv]
  | false =>
    simp only [runTests, he, Bool.false_eq_true, if_false]
    exact foldl_runTestsStep_inv env cfg stores (initResults, true) ⟨rfl, rfl⟩

theorem if_bool_and (b x : Bool) : (if b then x else false) = (b && x) := by
  cases b <;> simp

theorem runTestsStep_snd (env : VEnv) (cfg : Config) (acc : Results × Bool)
    (ts : TrustStore) :
    (runTestsStep env cfg acc ts).2 = (acc.2 && storeOutcome env cfg ts) := by
  cases hcfg : (!cfg.clientCert.isEmpty && !cfg.clientKey.isEmpty) with
  | true =>
    simp only [runTestsStep, storeOutcome, mtlsConfigured, hcfg, if_true]
    rw [testMtlsConnection_snd, testWebserverConnection_snd, if_bool_and,
      if_bool_and]
    cases acc.2 <;> cases webPassed env ts <;> cases credsOnDisk env cfg <;>
      cases mtlsPassed env ts <;> rfl
  | false =>
    simp only [runTestsStep, storeOutcome, mtlsConfigured, hcfg,
      Bool.false_eq_true, if_false]
    rw [testWebserverConnection_snd, if_bool_and]
    cases acc.2 <;> cases webPassed env ts <;> rfl

theorem foldl_runTestsStep_snd (env : VEnv) (cfg : Config)
    (stores : List TrustStore) :
    ∀ acc : Results × Bool,
      (stores.foldl (runTestsStep env cfg) acc).2 =
        (acc.2 && stores.all (fun ts => storeOutcome env cfg ts)) := by
  induction stores with
  | nil => intro acc; simp
  | cons ts rest ih =>
    intro acc
    rw [List.foldl_cons, ih, List.all_cons, runTestsStep_snd, Bool.and_assoc]

/-! ## Claims C1, C2, C7 -/

/-- Claim C1 fails on the code at this concrete input: one PEM trust
store is discovered, the webserver handshake succeeds, the client
credential paths are configured but neither file exists on disk, so the
single mTLS attempt is skipped.  Every executed test passed
(`failed = 0`, `passed = total_tests`, no mTLS record), yet `run_tests`
returns `False`, because the skip branch of `test_mtls_connection`
returns `False` and the loop in `run_tests` clears `success` on any
`False` return. -/
theorem run_tests_skip_clears_success :
    (runTests envNoCreds cfgSample [tsSample]).2 = false ∧
    (runTests envNoCreds cfgSample [tsSample]).1.failed = 0 ∧
    (runTests envNoCreds cfgSample [tsSample]).1.passed =
      (runTests envNoCreds cfgSample [tsSample]).1.total_tests ∧
    (runTests envNoCreds cfgSample [tsSample]).1.mtls = [] := by
  decide

/-- Claim C1 (amended): for every run with at least one discovered trust
store, the Boolean returned by `run_tests` is the conjunction, over all
trust stores, of the webserver outcome and, when client credentials are
configured, of the mTLS attempt outcome, where a skipped mTLS attempt
(missing credential file) contributes `False`; hence a run in which every
executed webserver test passed still reports failure when mTLS is
configured but a credential file is absent, and reports success exactly
when all executed tests passed and no skip occurred. -/
theorem run_tests_success_characterisation (env : VEnv) (cfg : Config)
    (stores : List TrustStore) (h : stores ≠ []) :
    (runTests env cfg stores).2 =
      stores.all (fun ts => storeOutcome env cfg ts) := by
  have he : stores.isEmpty = false := by
    cases stores with
    | nil => exact absurd rfl h
    | cons a l => rfl
  simp only [runTests, he, Bool.false_eq_true, if_false]
  rw [foldl_runTestsStep_snd]
  simp

/-- Witness for the amended claim C1 at a concrete input. -/
theorem run_tests_success_characterisation_witness :
    (runTests envNoCreds cfgSample [tsSample]).2 =
      [tsSample].all (fun ts => storeOutcome envNoCreds cfgSample ts) :=
  run_tests_success_characterisation envNoCreds cfgSample [tsSample]
    (by decide)

/-- Claim C2: every invocation of `test_webserver_connection` increments
`total_tests` exactly once, exactly one of `passed`/`failed` exactly
once, appends exactly one record to the webserver list and leaves the
mTLS list untouched; every non-skipped invocation of
`test_mtls_connection` (both credential files present) does the same on
its side; and after `run_tests` completes, `passed + failed` equals
`total_tests`, which equals the number of recorded webserver test cases
plus the number of recorded mTLS test cases. -/
theorem run_summary_counters (env : VEnv) (cfg : Config) :
    (∀ (ts : TrustStore) (r : Results),
      (testWebserverConnection env ts r).1.total_tests = r.total_tests + 1 ∧
      (((testWebserverConnection env ts r).1.passed = r.passed + 1 ∧
        (testWebserverConnection env ts r).1.failed = r.failed) ∨
       ((testWebserverConnection env ts r).1.failed = r.failed + 1 ∧
        (testWebserverConnection env ts r).1.passed = r.passed)) ∧
      (testWebserverConnection env ts r).1.webserver.length =
        r.webserver.length + 1 ∧
      (testWebserverConnection env ts r).1.mtls = r.mtls) ∧
    (∀ (ts : TrustStore) (r : Results), credsOnDisk env cfg = true →
      (testMtlsConnection env cfg ts r).1.total_tests = r.total_tests + 1 ∧
      (((testMtlsConnection env cfg ts r).1.passed = r.passed + 1 ∧
        (testMtlsConnection env cfg ts r).1.failed = r.failed) ∨
       ((testMtlsConnection env cfg ts r).1.failed = r.failed + 1 ∧
        (testMtlsConnection env cfg ts r).1.passed = r.passed)) ∧
      (testMtlsConnection env cfg ts r).1.mtls.length = r.mtls.length + 1 ∧
      (testMtlsConnection env cfg ts r).1.webserver = r.webserver) ∧
    (∀ stores : List TrustStore, resultsInv (runTests env cfg stores).1) :=
  ⟨fun ts r => testWebserverConnection_counts env ts r,
   fun ts r h => testMtlsConnection_counts env cfg ts r h,
   fun stores => runTests_fst_inv env cfg stores⟩

/-- Witness for claim C2 at a concrete input, with the non-skip
hypothesis of the mTLS conjunct discharged. -/
theorem run_summary_counters_witness :
    (testMtlsConnection envAllPass cfgSample tsSample initResults).1.total_tests =
      initResults.total_tests + 1 ∧
    resultsInv (runTests envAllPass cfgSample [tsSample]).1 :=
  ⟨((run_summary_counters envAllPass cfgSample).2.1 tsSample initResults
      (by decide)).1,
   (run_summary_counters envAllPass cfgSample).2.2 [tsSample]⟩

/-- Claim C7: when discovery finds zero trust stores, `run_tests`
returns failure immediately, executing no webserver or mTLS test: the
result is the freshly initialised structure paired with `False`, and
`total_tests`, `passed` and `failed` all remain 0 with both test-case
lists empty. -/
theorem run_tests_no_trust_stores (env : VEnv) (cfg : Config)
    (kt : Bytes → String → Option Nat) (avail : Bool)
    (files : List FSFile)
    (h : discoverTrustStores kt avail files = []) :
    runTests env cfg (discoverTrustStores kt avail files) =
      (initResults, false) ∧
    (runTests env cfg (discoverTrustStores kt avail files)).1.total_tests = 0 ∧
    (runTests env cfg (discoverTrustStores kt avail files)).1.passed = 0 ∧
    (runTests env cfg (discoverTrustStores kt avail files)).1.failed = 0 ∧
    (runTests env cfg (discoverTrustStores kt avail files)).1.webserver = [] ∧
    (runTests env cfg (discoverTrustStores kt avail files)).1.mtls = [] := by
  rw [h]
  exact ⟨rfl, rfl, rfl, rfl, rfl, rfl⟩

/-- Witness for claim C7 on an empty scan directory. -/
theorem run_tests_no_trust_stores_witness :
    runTests envAllPass cfgSample
      (discoverTrustStores (fun _ _ => none) true []) =
      (initResults, false) :=
  (run_tests_no_trust_stores envAllPass cfgSample (fun _ _ => none) true []
    rfl).1

/-! ## Claim C3: chain-file parsing -/

/-- Claim C3: in the info-server chain parsing, with a readable and
parseable server certificate, a well-formed chain file with exactly two
PEM certificates (marker occurrences exactly at the two block starts,
both blocks parseable) populates both `intermediate_ca` and `root_ca`
with `chain_length = 3`; exactly one certificate populates only
`intermediate_ca` with `chain_length = 2`; an absent chain file leaves
both null with `chain_length = 1`; and in a well-formed chain file with
three certificates the certificates after the second are ignored: the
output is the same two CA fields and `chain_length = 3`. -/
theorem chain_parse_cases (env : InfoEnv) (sd : Bytes) (sc : Nat)
    (hsrv : env.serverCrt = some sd) (hsl : env.loadCert sd = some sc) :
    (env.chainFile = none →
      ∃ ci, getCertificateChainInfo env = .ok ci ∧
        ci.intermediate_ca = none ∧ ci.root_ca = none ∧
        ci.chain_length = 1) ∧
    (∀ d c₁, env.chainFile = some d → markerPositions d = [0] →
      env.loadCert d = some c₁ →
      ∃ ci, getCertificateChainInfo env = .ok ci ∧
        ci.intermediate_ca = some (env.certDetails c₁) ∧ ci.root_ca = none ∧
        ci.chain_length = 2) ∧
    (∀ d p c₁ c₂, env.chainFile = some d → markerPositions d = [0, p] →
      env.loadCert d = some c₁ → env.loadCert (d.drop p) = some c₂ →
      ∃ ci, getCertificateChainInfo env = .ok ci ∧
        ci.intermediate_ca = some (env.certDetails c₁) ∧
        ci.root_ca = some (env.certDetails c₂) ∧ ci.chain_length = 3) ∧
    (∀ d p q c₁ c₂ c₃, env.chainFile = some d →
      markerPositions d = [0, p, q] → env.loadCert d = some c₁ →
      env.loadCert (d.drop p) = some c₂ → env.loadCert (d.drop q) = some c₃ →
      ∃ ci, getCertificateChainInfo env = .ok ci ∧
        ci.intermediate_ca = some (env.certDetails c₁) ∧
        ci.root_ca = some (env.certDetails c₂) ∧ ci.chain_length = 3) := by
  refine ⟨?_, ?_, ?_, ?_⟩
  · intro hcf
    simp only [getCertificateChainInfo, hsrv, hsl, hcf]
    exact ⟨_, rfl, rfl, rfl, rfl⟩
  · intro d c₁ hcf hpos h₁
    have hloop := chainLoop_positions_one env.loadCert d c₁ hpos h₁
    simp only [getCertificateChainInfo, hsrv, hsl, hcf, hloop]
    exact ⟨_, rfl, rfl, rfl, rfl⟩
  · intro d p c₁ c₂ hcf hpos h₁ h₂
    have hloop := chainLoop_positions_two env.loadCert d p c₁ c₂ hpos h₁ h₂
    simp only [getCertificateChainInfo, hsrv, hsl, hcf, hloop]
    exact ⟨_, rfl, rfl, rfl, rfl⟩
  · intro d p q c₁ c₂ c₃ hcf hpos h₁ h₂ h₃
    have hloop :=
      chainLoop_positions_three env.loadCert d p q c₁ c₂ c₃ hpos h₁ h₂ h₃
    simp only [getCertificateChainInfo, hsrv, hsl, hcf, hloop]
    exact ⟨_, rfl, rfl, rfl, rfl⟩

/-- Witness for claim C3 on concrete zero, one, two and three certificate
chain files. -/
theorem chain_parse_cases_witness :
    (∃ ci, getCertificateChainInfo infoEnvNoChain = .ok ci ∧
      ci.intermediate_ca = none ∧ ci.root_ca = none ∧ ci.chain_length = 1) ∧
    (∃ ci, getCertificateChainInfo infoEnvOne = .ok ci ∧
      ci.intermediate_ca = some (infoEnvOne.certDetails chainOne.length) ∧
      ci.root_ca = none ∧ ci.chain_length = 2) ∧
    (∃ ci, getCertificateChainInfo infoEnvTwo = .ok ci ∧
      ci.intermediate_ca = some (infoEnvTwo.certDetails chainTwo.length) ∧
      ci.root_ca = some (infoEnvTwo.certDetails (chainTwo.drop 29).length) ∧
      ci.chain_length = 3) ∧
    (∃ ci, getCertificateChainInfo infoEnvThree = .ok ci ∧
      ci.intermediate_ca = some (infoEnvThree.certDetails chainThree.length) ∧
      ci.root_ca = some (infoEnvThree.certDetails (chainThree.drop 29).length) ∧
      ci.chain_length = 3) :=
  ⟨(chain_parse_cases infoEnvNoChain [] 0 rfl rfl).1 rfl,
   (chain_parse_cases infoEnvOne [] 0 rfl rfl).2.1 chainOne chainOne.length
     rfl (by decide) rfl,
   (chain_parse_cases infoEnvTwo [] 0 rfl rfl).2.2.1 chainTwo 29
     chainTwo.length (chainTwo.drop 29).length rfl (by decide) rfl rfl,
   (chain_parse_cases infoEnvThree [] 0 rfl rfl).2.2.2 chainThree 29 58
     chainThree.length (chainThree.drop 29).length (chainThree.drop 58).length
     rfl (by decide) rfl rfl rfl⟩

/-! ## Claims C4 and C10: the mTLS endpoint headers -/

theorem mtlsInfo_client_certificate (env : InfoEnv)
    (hs : List (String × String)) :
    (mtlsInfo env hs).client_certificate = getClientCertInfo hs := by
  unfold mtlsInfo
  cases getCertificateChainInfo env <;> rfl

/-- Claim C4: for every request to the `/mtls` endpoint, the
`has_client_cert` field of the JSON response is true if and only if the
request carries an `X-SSL-Client-Verify` header whose value equals the
literal string `SUCCESS` exactly; any other value, including an absent
header, yields false. -/
theorem mtls_has_client_cert_iff (env : InfoEnv)
    (hs : List (String × String)) :
    (mtlsInfo env hs).client_certificate.has_client_cert = true ↔
      headerLookup hs "X-SSL-Client-Verify" = some "SUCCESS" := by
  rw [mtlsInfo_client_certificate]
  show decide ((headerLookup hs "X-SSL-Client-Verify").getD "None" =
    "SUCCESS") = true ↔ _
  cases hv : headerLookup hs "X-SSL-Client-Verify" with
  | none =>
    simp only [Option.getD_none]
    constructor
    · intro h
      exact absurd (of_decide_eq_true h) (by decide)
    · intro h
      exact Option.noConfusion h
  | some v =>
    simp only [Option.getD_some]
    constructor
    · intro h
      rw [of_decide_eq_true h]
    · intro h
      exact decide_eq_true (Option.some.inj h)

/-- Claim C10 fails on the code at this concrete input: a request whose
`X-SSL-Client-DN` header is absent but whose `X-SSL-Client-Verify` header
equals `SUCCESS` gets `client_dn = "None"` yet `has_client_cert = true`,
contradicting the claim that absence of either header forces
`has_client_cert` to false. -/
theorem mtls_dn_absent_counterexample :
    headerLookup [("X-SSL-Client-Verify", "SUCCESS")] "X-SSL-Client-DN" =
      none ∧
    (mtlsInfo infoEnvNoChain
        [("X-SSL-Client-Verify", "SUCCESS")]).client_certificate.client_dn =
      "None" ∧
    (mtlsInfo infoEnvNoChain
        [("X-SSL-Client-Verify",
          "SUCCESS")]).client_certificate.has_client_cert = true := by
  decide

/-- Claim C10 (amended): when the `X-SSL-Client-Verify` header is absent,
the `client_verify` field of the `/mtls` response is the literal string
`None` (a string, not a JSON null, since the field is built with a string
default) and `has_client_cert` is false; when the `X-SSL-Client-DN`
header is absent, the `client_dn` field is likewise the literal string
`None` (absence of the DN header alone does not force `has_client_cert`
to false, which depends only on the verify header). -/
theorem mtls_absent_header_defaults (env : InfoEnv)
    (hs : List (String × String)) :
    (headerLookup hs "X-SSL-Client-Verify" = none →
      (mtlsInfo env hs).client_certificate.client_verify = "None" ∧
      (mtlsInfo env hs).client_certificate.has_client_cert = false) ∧
    (headerLookup hs "X-SSL-Client-DN" = none →
      (mtlsInfo env hs).client_certificate.client_dn = "None") := by
  constructor
  · intro hv
    rw [mtlsInfo_client_certificate]
    constructor
    · show (headerLookup hs "X-SSL-Client-Verify").getD "None" = "None"
      rw [hv]
      rfl
    · show decide ((headerLookup hs "X-SSL-Client-Verify").getD "None" =
        "SUCCESS") = false
      rw [hv]
      rfl
  · intro hd
    rw [mtlsInfo_client_certificate]
    show (headerLookup hs "X-SSL-Client-DN").getD "None" = "None"
    rw [hd]
    rfl

/-- Witness for the amended claim C10 on a request with no headers. -/
theorem mtls_absent_header_defaults_witness :
    (mtlsInfo infoEnvNoChain []).client_certificate.client_verify = "None" ∧
    (mtlsInfo infoEnvNoChain []).client_certificate.has_client_cert = false ∧
    (mtlsInfo infoEnvNoChain []).client_certificate.client_dn = "None" :=
  ⟨((mtls_absent_header_defaults infoEnvNoChain []).1 rfl).1,
   ((mtls_absent_header_defaults infoEnvNoChain []).1 rfl).2,
   (mtls_absent_header_defaults infoEnvNoChain []).2 rfl⟩

/-! ## Claims C5 and C6: trust-store discovery -/

theorem isPrefixOf_of_le (c : Bytes) : ∀ a b : Bytes,
    a.isPrefixOf c = true → b.isPrefixOf c = true → a.length ≤ b.length →
    a.isPrefixOf b = true := by
  induction c with
  | nil =>
    intro a b ha _ _
    cases a with
    | nil => cases b <;> rfl
    | cons y as => simp [List.isPrefixOf] at ha
  | cons x cs ih =>
    intro a b ha hb hl
    cases a with
    | nil => cases b <;> rfl
    | cons y as =>
      cases b with
      | nil =>
        simp only [List.length_cons, List.length_nil] at hl
        omega
      | cons z bs =>
        simp only [List.isPrefixOf, Bool.and_eq_true] at ha hb ⊢
        obtain ⟨hy, has⟩ := ha
        obtain ⟨hz, hbs⟩ := hb
        refine ⟨?_, ih as bs has hbs (by simpa using hl)⟩
        rw [eq_of_beq hy, eq_of_beq hz]
        exact beq_self_eq_true x

theorem isSuffixOf_incompat (a b p : Bytes) (hab : a.isSuffixOf b = false)
    (hba : b.isSuffixOf a = false) (hb : b.isSuffixOf p = true) :
    a.isSuffixOf p = false := by
  cases hsa : a.isSuffixOf p with
  | false => rfl
  | true =>
    unfold List.isSuffixOf at hsa hb hab hba
    rcases Nat.le_total a.length b.length with hl | hl
    · have hpre := isPrefixOf_of_le p.reverse a.reverse b.reverse hsa hb
        (by simpa using hl)
      rw [hpre] at hab
      exact Bool.noConfusion hab
    · have hpre := isPrefixOf_of_le p.reverse b.reverse a.reverse hb hsa
        (by simpa using hl)
      rw [hpre] at hba
      exact Bool.noConfusion hba

theorem hasJksExt_false_of_pem {p : Bytes} (h : hasPemExt p = true) :
    hasJksExt p = false := by
  unfold hasPemExt at h
  unfold hasJksExt
  simp only [Bool.or_eq_true] at h
  rcases h with (hp | hp) | hp
  · rw [isSuffixOf_incompat ".jks".toList ".pem".toList p
        (by decide) (by decide) hp,
      isSuffixOf_incompat ".keystore".toList ".pem".toList p
        (by decide) (by decide) hp,
      isSuffixOf_incompat ".truststore".toList ".pem".toList p
        (by decide) (by decide) hp]
    rfl
  · rw [isSuffixOf_incompat ".jks".toList ".crt".toList p
        (by decide) (by decide) hp,
      isSuffixOf_incompat ".keystore".toList ".crt".toList p
        (by decide) (by decide) hp,
      isSuffixOf_incompat ".truststore".toList ".crt".toList p
        (by decide) (by decide) hp]
    rfl
  · rw [isSuffixOf_incompat ".jks".toList ".cert".toList p
        (by decide) (by decide) hp,
      isSuffixOf_incompat ".keystore".toList ".cert".toList p
        (by decide) (by decide) hp,
      isSuffixOf_incompat ".truststore".toList ".cert".toList p
        (by decide) (by decide) hp]
    rfl

theorem hasPemExt_false_of_jks {p : Bytes} (h : hasJksExt p = true) :
    hasPemExt p = false := by
  unfold hasJksExt at h
  unfold hasPemExt
  simp only [Bool.or_eq_true] at h
  rcases h with (hp | hp) | hp
  · rw [isSuffixOf_incompat ".pem".toList ".jks".toList p
        (by decide) (by decide) hp,
      isSuffixOf_incompat ".crt".toList ".jks".toList p
        (by decide) (by decide) hp,
      isSuffixOf_incompat ".cert".toList ".jks".toList p
        (by decide) (by decide) hp]
    rfl
  · rw [isSuffixOf_incompat ".pem".toList ".keystore".toList p
        (by decide) (by decide) hp,
      isSuffixOf_incompat ".crt".toList ".keystore".toList p
        (by decide) (by decide) hp,
      isSuffixOf_incompat ".cert".toList ".keystore".toList p
        (by decide) (by decide) hp]
    rfl
  · rw [isSuffixOf_incompat ".pem".toList ".truststore".toList p
        (by decide) (by decide) hp,
      isSuffixOf_incompat ".crt".toList ".truststore".toList p
        (by decide) (by decide) hp,
      isSuffixOf_incompat ".cert".toList ".truststore".toList p
        (by decide) (by decide) hp]
    rfl

theorem discoverPemScan_skip (pre post : List FSFile) (f : FSFile)
    (h : pemRecord f = none) :
    discoverPemScan (pre ++ f :: post) = discoverPemScan (pre ++ post) := by
  unfold discoverPemScan
  rw [List.filterMap_append, List.filterMap_append,
    List.filterMap_cons_none h]

theorem discoverJksScan_skip (kt : Bytes → String → Option Nat)
    (pre post : List FSFile) (f : FSFile) (h : jksRecord kt f = none) :
    discoverJksScan kt (pre ++ f :: post) =
      discoverJksScan kt (pre ++ post) := by
  unfold discoverJksScan
  rw [List.filterMap_append, List.filterMap_append,
    List.filterMap_cons_none h]

theorem discoverJksScan_split (kt : Bytes → String → Option Nat)
    (pre post : List FSFile) (f : FSFile) (r : TrustStore)
    (h : jksRecord kt f = some r) :
    discoverJksScan kt (pre ++ f :: post) =
      discoverJksScan kt pre ++ [r] ++ discoverJksScan kt post := by
  unfold discoverJksScan
  rw [List.filterMap_append, List.filterMap_cons_some h]
  simp

/-- Claim C5: a readable scanned file with extension `.pem`, `.crt` or
`.cert` whose content holds at least one certificate marker is recorded
as a pem trust store whose `cert_count` is the number of marker
occurrences counted by the scan, and a marker-free file contributes
nothing to the discovered set; the rest of the discovery output is
unaffected. -/
theorem discover_pem_cert_count (kt : Bytes → String → Option Nat)
    (avail : Bool) (pre post : List FSFile) (f : FSFile)
    (hext : hasPemExt f.path = true) (hread : f.readable = true) :
    discoverTrustStores kt avail (pre ++ f :: post) =
      discoverPemScan pre ++
        (if 1 ≤ countMarker f.content then
          [⟨f.path, .pem, countMarker f.content, none⟩] else []) ++
        discoverPemScan post ++
        (if avail then discoverJksScan kt (pre ++ post) else []) := by
  have hjks := hasJksExt_false_of_pem hext
  have hjr : jksRecord kt f = none := by
    unfold jksRecord
    rw [hjks]
    simp
  have hjscan := discoverJksScan_skip kt pre post f hjr
  have hpem : discoverPemScan (pre ++ f :: post) =
      discoverPemScan pre ++
        (if 1 ≤ countMarker f.content then
          [⟨f.path, .pem, countMarker f.content, none⟩] else []) ++
        discoverPemScan post := by
    unfold discoverPemScan
    rw [List.filterMap_append, List.append_assoc]
    congr 1
    by_cases hc : containsMarker f.content = true
    · have hpf : pemRecord f =
          some ⟨f.path, .pem, countMarker f.content, none⟩ := by
        simp [pemRecord, hext, hread, hc]
      rw [List.filterMap_cons_some hpf,
        if_pos ((containsMarker_iff_countMarker f.content).mp hc)]
      rfl
    · have hc' : containsMarker f.content = false :=
        Bool.eq_false_iff.mpr hc
      have hpf : pemRecord f = none := by
        simp [pemRecord, hext, hread, hc']
      rw [List.filterMap_cons_none hpf,
        if_neg (fun hcm => hc ((containsMarker_iff_countMarker
          f.content).mpr hcm))]
      rfl
  unfold discoverTrustStores
  rw [hpem, hjscan]

/-- Witness for claim C5 on a one-certificate PEM bundle. -/
theorem discover_pem_cert_count_witness :
    discoverTrustStores ktOnlyPassword false ([] ++ pemFileSample :: []) =
      discoverPemScan [] ++
        (if 1 ≤ countMarker pemFileSample.content then
          [⟨pemFileSample.path, .pem, countMarker pemFileSample.content,
            none⟩] else []) ++
        discoverPemScan [] ++
        (if false then discoverJksScan ktOnlyPassword ([] ++ []) else []) :=
  discover_pem_cert_count ktOnlyPassword false [] [] pemFileSample
    (by decide) rfl

/-- Claim C6: for a scanned Java keystore file (extension `.jks`,
`.keystore` or `.truststore`) when `keytool` is available, the passwords
`changeit`, `password`, `truststore` are tried in that order and the
recorded password is the first that succeeds: a keystore openable with
`changeit` is recorded with it at once; one openable only with `password`
is recorded with `password` (and not `changeit` or `truststore`); one
openable only with `truststore` is recorded with it; and a keystore none
of the three opens is excluded from the discovered set entirely. -/
theorem discover_jks_first_password (kt : Bytes → String → Option Nat)
    (pre post : List FSFile) (f : FSFile) (n : Nat)
    (hext : hasJksExt f.path = true) :
    (kt f.path "changeit" = some n →
      discoverTrustStores kt true (pre ++ f :: post) =
        discoverPemScan (pre ++ post) ++ (discoverJksScan kt pre ++
          [⟨f.path, .jks, n, some "changeit"⟩] ++
          discoverJksScan kt post)) ∧
    (kt f.path "changeit" = none → kt f.path "password" = some n →
      discoverTrustStores kt true (pre ++ f :: post) =
        discoverPemScan (pre ++ post) ++ (discoverJksScan kt pre ++
          [⟨f.path, .jks, n, some "password"⟩] ++
          discoverJksScan kt post)) ∧
    (kt f.path "changeit" = none → kt f.path "password" = none →
      kt f.path "truststore" = some n →
      discoverTrustStores kt true (pre ++ f :: post) =
        discoverPemScan (pre ++ post) ++ (discoverJksScan kt pre ++
          [⟨f.path, .jks, n, some "truststore"⟩] ++
          discoverJksScan kt post)) ∧
    (kt f.path "changeit" = none → kt f.path "password" = none →
      kt f.path "truststore" = none →
      discoverTrustStores kt true (pre ++ f :: post) =
        discoverPemScan (pre ++ post) ++
          discoverJksScan kt (pre ++ post)) := by
  have hpem := hasPemExt_false_of_jks hext
  have hpf : pemRecord f = none := by
    simp [pemRecord, hpem]
  have hpemscan := discoverPemScan_skip pre post f hpf
  refine ⟨?_, ?_, ?_, ?_⟩
  · intro h1
    have hjr : jksRecord kt f = some ⟨f.path, .jks, n, some "changeit"⟩ := by
      simp [jksRecord, hext, tryPasswords, passwordList, h1]
    unfold discoverTrustStores
    rw [if_pos rfl, hpemscan, discoverJksScan_split kt pre post f _ hjr]
  · intro h1 h2
    have hjr : jksRecord kt f = some ⟨f.path, .jks, n, some "password"⟩ := by
      simp [jksRecord, hext, tryPasswords, passwordList, h1, h2]
    unfold discoverTrustStores
    rw [if_pos rfl, hpemscan, discoverJksScan_split kt pre post f _ hjr]
  · intro h1 h2 h3
    have hjr : jksRecord kt f =
        some ⟨f.path, .jks, n, some "truststore"⟩ := by
      simp [jksRecord, hext, tryPasswords, passwordList, h1, h2, h3]
    unfold discoverTrustStores
    rw [if_pos rfl, hpemscan, discoverJksScan_split kt pre post f _ hjr]
  · intro h1 h2 h3
    have hjr : jksRecord kt f = none := by
      simp [jksRecord, hext, tryPasswords, passwordList, h1, h2, h3]
    unfold discoverTrustStores
    rw [if_pos rfl, hpemscan, discoverJksScan_skip kt pre post f hjr]

/-- Witness for claim C6 on a keystore openable only with the password
`password`. -/
theorem discover_jks_first_password_witness :
    discoverTrustStores ktOnlyPassword true ([] ++ jksFileSample :: []) =
      discoverPemScan ([] ++ []) ++ (discoverJksScan ktOnlyPassword [] ++
        [⟨jksFileSample.path, .jks, 3, some "password"⟩] ++
        discoverJksScan ktOnlyPassword []) :=
  (discover_jks_first_password ktOnlyPassword [] [] jksFileSample 3
    (by decide)).2.1 (by decide) (by decide)

/-! ## Claims C8 and C9: client-certificate generation -/

/-- Claim C8: `generate_client_cert` is idempotent: whenever a first call
left both the client certificate and key files present on disk (created
or found), a second call is a no-op that returns `True` and leaves the
bytes of both files unchanged, whatever the second generation oracle
would produce. -/
theorem generate_client_cert_idempotent (g₁ g₂ : Option (Bytes × Bytes))
    (fs : CredFS)
    (h₁ : (generateClientCert g₁ fs).1.certFile.isSome = true)
    (h₂ : (generateClientCert g₁ fs).1.keyFile.isSome = true) :
    generateClientCert g₂ (generateClientCert g₁ fs).1 =
      ((generateClientCert g₁ fs).1, true) := by
  generalize hX : (generateClientCert g₁ fs).1 = X at h₁ h₂
  unfold generateClientCert
  rw [h₁, h₂]
  rfl

/-- Witness for claim C8: generate onto an empty disk, then call again
with a failing oracle; the second call still no-ops successfully. -/
theorem generate_client_cert_idempotent_witness :
    generateClientCert none
        (generateClientCert (some ([], [])) ⟨none, none⟩).1 =
      ((generateClientCert (some ([], [])) ⟨none, none⟩).1, true) :=
  generate_client_cert_idempotent (some ([], [])) none ⟨none, none⟩ rfl rfl

/-- Claim C9: when exactly one of the two credential files exists,
`generate_client_cert` does not take the no-op branch: it generates a
fresh pair and writes both files, overwriting the pre-existing one, and
returns `True`. -/
theorem generate_client_cert_overwrites_lone (cb kb old : Bytes) :
    generateClientCert (some (cb, kb)) ⟨some old, none⟩ =
      (⟨some cb, some kb⟩, true) ∧
    generateClientCert (some (cb, kb)) ⟨none, some old⟩ =
      (⟨some cb, some kb⟩, true) :=
  ⟨rfl, rfl⟩

end SslRepo
